import Mathlib

/-!
Shallow embedding of the discussion-forum backend (FastAPI demo project).

The handlers of `src/app/routers/discussion_threads.py` and `src/app/main.py`
are embedded as pure state-passing functions over an explicit `AppState`
(users table, discussion-thread table, and the set of saved attachment
files).  Timestamps, fresh row ids, the random password salt, the wall-clock
reading used in attachment file names, and the success of the file write and
of the database commit are passed in explicitly (`Env` and extra arguments),
since they are ambient effects in the Python code.

The `DiscussionThread` model class and the whole of `app/auth.py`
(`hash_password`, `verify_password`, `create_access_token`, token
verification) are imported by the sources but their definitions are not in
the repository snapshot; those parts are modelled from the specification and
are marked as such in their doc comments.
-/

namespace ForumSpec

/-- HTTP error raised by a handler: status code plus detail message,
mirroring `fastapi.HTTPException`. -/
structure HErr where
  status_code : Nat
  detail : String
deriving Repr, DecidableEq

/-- Embeds the `User` model of `src/app/models.py`: primary key, unique
username, hashed password, creation timestamp.  The UUID primary key is
modelled as a `Nat`; timestamps are modelled as `Nat`. -/
structure User where
  id : Nat
  username : String
  hashed_password : String
  created_at : Nat
deriving Repr, DecidableEq

/-- Modelled from the spec: the `DiscussionThread` model class is imported
from `app.models` by the routers but is absent from the `models.py` in the
snapshot.  Fields follow the spec data model: id, owning `user_id`, `title`,
mutable `content`, optional `image_path`, `created_at`, `updated_at`. -/
structure DiscussionThread where
  id : Nat
  user_id : Nat
  title : String
  content : String
  image_path : Option String
  created_at : Nat
  updated_at : Nat
deriving Repr, DecidableEq

/-- Embeds `starlette.datastructures.UploadFile` as the two attributes the
routers read: `filename` and `content_type`, both of which may be absent. -/
structure UploadFile where
  filename : Option String
  content_type : Option String
deriving Repr, DecidableEq

/-- The stored state: the `users` table, the discussion-thread table (in
insertion order, as an unordered `SELECT` returns rows in this model), and
the attachment files saved on disk (by path). -/
structure AppState where
  users : List User
  threads : List DiscussionThread
  files : List String
deriving Repr, DecidableEq

/-- Ambient inputs of `create_discussion_thread`: the `IMAGE_PATH` config
value, the `time()` reading used in the file name, the current timestamp,
the fresh row id the database would assign, and whether the file write and
the database commit succeed. -/
structure Env where
  image_dir : String
  time : Nat
  now : Nat
  newId : Nat
  ioOk : Bool
  dbOk : Bool
deriving Repr, DecidableEq

/-- The 422 error `Uploaded file is not an image` raised by `is_image` and
`save_image`. -/
def imgErr : HErr := ⟨422, "Uploaded file is not an image"⟩

/-- The 404 error raised by `get_discussion_thread`. -/
def notFoundErr : HErr := ⟨404, "Discussion thread not found"⟩

/-- The 401 error raised by `update_discussion_thread` and
`delete_discussion_thread` on an ownership mismatch. -/
def forbiddenErr : HErr := ⟨401, "This is not your discussion thread"⟩

/-- The 422 error raised by `create_user` on a password mismatch. -/
def pwMismatchErr : HErr := ⟨422, "Two passwords are not the same"⟩

/-- The 422 error produced when the database commit of a new user row is
rejected by the unique index on `username` (the Python code wraps the
driver exception text; the detail string here stands for it). -/
def duplicateErr : HErr := ⟨422, "duplicate key value violates unique constraint"⟩

/-- The 422 error produced when a database commit fails inside a handler
(`except Exception` branch; the detail string stands for `str(e)`). -/
def dbErr : HErr := ⟨422, "db error"⟩

/-- The 422 error produced when the file write in `save_image` fails
(`except IOError` branch). -/
def ioErr : HErr := ⟨422, "io error"⟩

/-- Embeds `re.match("image/.+", ct) is not None`: the string must start
with `image/` followed by at least one character matched by `.`, which in
Python does not match a newline. -/
def image_ct_match (ct : String) : Bool :=
  match ct.data with
  | 'i' :: 'm' :: 'a' :: 'g' :: 'e' :: '/' :: c :: _ => c != '\n'
  | _ => false

/-- Embeds `is_image` of `src/app/routers/discussion_threads.py`: `None`
yields `False`; a truthy `content_type` that does not match `image/.+`
raises 422; otherwise (including a missing or empty `content_type`) the
upload counts as an image. -/
def is_image (image : Option UploadFile) : Except HErr Bool :=
  match image with
  | none => .ok false
  | some img =>
    match img.content_type with
    | none => .ok true
    | some ct =>
      if ct = "" then .ok true
      else if image_ct_match ct then .ok true
      else .error imgErr

/-- Whether `.+$` matches the rest of the string after a dot, in Python
semantics: the remaining characters up to the end (a single trailing
newline may sit after the match position accepted by `$`) are nonempty and
contain no newline. -/
def dotTailMatch (rest : List Char) : Bool :=
  let body := if rest.getLast? = some '\n' then rest.dropLast else rest
  (!body.isEmpty) && body.all (fun c => c != '\n')

/-- Embeds `re.search(r"\..+$", filename)`: the leftmost dot from which
`.+$` matches, returning the matched text (the dot and everything after
it, excluding a trailing newline accepted by `$`). -/
def ext_search : List Char → Option (List Char)
  | [] => none
  | c :: rest =>
    if c = '.' && dotTailMatch rest then
      some ('.' :: (if rest.getLast? = some '\n' then rest.dropLast else rest))
    else ext_search rest

/-- The attachment path built by `save_image`:
`IMAGE_PATH/time_username_title` followed by the matched extension. -/
def mk_image_path (env : Env) (username title : String) (ext : List Char) : String :=
  env.image_dir ++ "/" ++ toString env.time ++ "_" ++ username ++ "_" ++ title ++ String.mk ext

/-- Embeds `save_image`: a falsy `filename` or a failed extension search
raises 422 before anything is written; otherwise the file is written at the
built path (the write may fail with an `IOError`, surfaced as 422 with
nothing recorded). -/
def save_image (image : UploadFile) (username title : String) (env : Env) (s : AppState) :
    Except HErr (String × AppState) :=
  match image.filename with
  | none => .error imgErr
  | some fn =>
    match ext_search fn.data with
    | none => .error imgErr
    | some ext =>
      let image_path := mk_image_path env username title ext
      if env.ioOk then .ok (image_path, { s with files := s.files ++ [image_path] })
      else .error ioErr

/-- The attachment step of `create_discussion_thread`: when `is_image`
returned `True` the upload is saved via `save_image`, otherwise the image
path is `None`. -/
def attach_image (isImg : Bool) (image : Option UploadFile) (username title : String)
    (env : Env) (s : AppState) : Except HErr (Option String × AppState) :=
  if isImg then
    match image with
    | none => .ok (none, s)
    | some img =>
      match save_image img username title env s with
      | .error e => .error e
      | .ok (path, s1) => .ok (some path, s1)
  else .ok (none, s)

/-- Embeds `create_discussion_thread` of the router: validate the upload
with `is_image`, save it with `save_image`, then insert the new row and
commit; a commit failure is surfaced as 422 and, notably, the already
saved file is not removed.  The new row gets a fresh id and
`created_at = updated_at = now` per the spec data model. -/
def create_discussion_thread (title content : String) (current_user : User)
    (image : Option UploadFile) (env : Env) (s : AppState) :
    Except HErr DiscussionThread × AppState :=
  match is_image image with
  | .error e => (.error e, s)
  | .ok isImg =>
    match attach_image isImg image current_user.username title env s with
    | .error e => (.error e, s)
    | .ok (image_path, s1) =>
      if env.dbOk then
        let t : DiscussionThread :=
          { id := env.newId, user_id := current_user.id, title := title,
            content := content, image_path := image_path,
            created_at := env.now, updated_at := env.now }
        (.ok t, { s1 with threads := s1.threads ++ [t] })
      else (.error dbErr, s1)

/-- Embeds `get_discussion_thread`: select the row by primary key, 404 when
absent.  Also the body of the `read` route. -/
def get_discussion_thread (s : AppState) (id : Nat) : Except HErr DiscussionThread :=
  match s.threads.find? (fun th => th.id == id) with
  | none => .error notFoundErr
  | some t => .ok t

/-- SQL `LIKE` pattern matching as PostgreSQL evaluates the pattern
generated by SQLAlchemy `contains`: `%` matches any sequence, `_` matches
any single character, and a backslash escapes the following character (a
pattern ending in a bare backslash matches nothing). -/
def likeMatch : List Char → List Char → Bool
  | [], t => t.isEmpty
  | c :: p, t =>
    if c = '%' then t.tails.any (fun t' => likeMatch p t')
    else if c = '_' then
      match t with
      | [] => false
      | _ :: t' => likeMatch p t'
    else if c = '\\' then
      match p with
      | [] => false
      | e :: p' =>
        match t with
        | [] => false
        | d :: t' => e == d && likeMatch p' t'
    else
      match t with
      | [] => false
      | d :: t' => c == d && likeMatch p t'
termination_by structural p => p

/-- Embeds `col(DiscussionThread.title).contains(search_title)`: SQLAlchemy
renders `title LIKE '%' || search_title || '%'` with no autoescape, so the
filter text is spliced into the `LIKE` pattern verbatim. -/
def likeContains (fragment : String) (text : String) : Bool :=
  likeMatch ('%' :: (fragment.data ++ ['%'])) text.data

/-- Embeds `list_discussion_threads`: no filter returns every row; a filter
keeps the rows whose title satisfies the `LIKE '%filter%'` predicate.  The
unordered `SELECT` is modelled as returning rows in insertion order. -/
def list_discussion_threads (s : AppState) (search_title : Option String) :
    List DiscussionThread :=
  match search_title with
  | none => s.threads
  | some q => s.threads.filter (fun t => likeContains q t.title)

/-- Embeds `update_discussion_thread`: fetch-or-404, ownership check
(401 on mismatch), then set `content` and `updated_at = now` and commit
(success path).  The pair is the handler result and the state after the
call. -/
def update_discussion_thread (s : AppState) (id : Nat) (content : String)
    (current_user : User) (now : Nat) : Except HErr DiscussionThread × AppState :=
  match get_discussion_thread s id with
  | .error e => (.error e, s)
  | .ok t =>
    if t.user_id ≠ current_user.id then (.error forbiddenErr, s)
    else
      let t' := { t with content := content, updated_at := now }
      (.ok t', { s with threads := s.threads.map (fun th => if th.id = id then t' else th) })

/-- Embeds `delete_discussion_thread`: fetch-or-404, ownership check
(401 on mismatch), then delete the row and commit (success path). -/
def delete_discussion_thread (s : AppState) (id : Nat) (current_user : User) :
    Except HErr Unit × AppState :=
  match get_discussion_thread s id with
  | .error e => (.error e, s)
  | .ok t =>
    if t.user_id ≠ current_user.id then (.error forbiddenErr, s)
    else (.ok (), { s with threads := s.threads.filter (fun th => th.id != id) })

/-- Modelled from the spec: `hash_password` lives in the absent
`app/auth.py`.  Per the spec it embeds a fresh random salt in its output;
the salt is the explicit first argument here, encoded in unary before a
separator, with the verification material after it. -/
def hash_password (salt : Nat) (password : String) : String :=
  String.mk (List.replicate salt 's' ++ '$' :: password.data)

/-- Recovers the verification material embedded after the salt of a stored
hash; `none` on a string not produced by `hash_password` (malformed). -/
def stripSalt : List Char → Option (List Char)
  | [] => none
  | c :: rest =>
    if c = '$' then some rest
    else if c = 's' then stripSalt rest
    else none

/-- Modelled from the spec: `verify_password` of the absent `app/auth.py`.
It recombines the password with the salt embedded in the stored hash and
compares; a malformed hash is treated as verification failure, never an
exception (the function is total). -/
def verify_password (password : String) (hashed : String) : Bool :=
  match stripSalt hashed.data with
  | none => false
  | some body => body == password.data

/-- Embeds `create_user` of `src/app/main.py`: 422 when the two passwords
differ; the insert commit is rejected by the unique index on `username`
when the name is taken (surfaced as 422); otherwise the row is stored with
the salted hash of the password. -/
def create_user (s : AppState) (username password confirm_password : String)
    (salt newId now : Nat) : Except HErr Unit × AppState :=
  if password ≠ confirm_password then (.error pwMismatchErr, s)
  else if s.users.any (fun u => u.username == username) then (.error duplicateErr, s)
  else
    (.ok (), { s with users := s.users ++ [⟨newId, username, hash_password salt password, now⟩] })

/-- Token-service error taxonomy of the spec. -/
inductive AuthError where
  | Invalid
  | Expired
deriving Repr, DecidableEq

/-- Modelled from the spec: the signature over the token payload computed
with the process-wide secret (the signing scheme itself is out of scope;
any fixed function of secret, subject and expiry stands for it). -/
def sign (secret : Nat) (sub : String) (exp : Nat) : Nat :=
  secret * 1000003 + exp * 31 + sub.length

/-- Modelled from the spec: a signed bearer token with payload
`sub = username`, `exp` timestamp, and signature. -/
structure SignedToken where
  sub : String
  exp : Nat
  sig : Nat
deriving Repr, DecidableEq

/-- Modelled from the spec: `create_access_token` of the absent
`app/auth.py`, as used by `login_for_access_token`: payload
`sub = username`, `exp = now + expires_delta`, signed with the secret. -/
def create_access_token (secret now : Nat) (sub : String) (expires_delta : Nat) : SignedToken :=
  { sub := sub, exp := now + expires_delta, sig := sign secret sub (now + expires_delta) }

/-- Modelled from the spec: token verification — `Invalid` when the
signature does not match, `Expired` when `exp ≤ now`, otherwise the
embedded username.  A pure function of the token and the current time; it
takes no stored state. -/
def token_verify (secret now : Nat) (tok : SignedToken) : Except AuthError String :=
  if tok.sig ≠ sign secret tok.sub tok.exp then .error .Invalid
  else if tok.exp ≤ now then .error .Expired
  else .ok tok.sub

/-! Helper lemmas about the store. -/

/-- A successful fetch means the primary-key lookup found the row. -/
theorem get_ok_find (s : AppState) (id : Nat) (t : DiscussionThread)
    (h : get_discussion_thread s id = .ok t) :
    s.threads.find? (fun th => th.id == id) = some t := by
  unfold get_discussion_thread at h
  cases hf : s.threads.find? (fun th => th.id == id) with
  | none => rw [hf] at h; simp at h
  | some x =>
    rw [hf] at h
    simp only [Except.ok.injEq] at h
    rw [h]

/-- Replacing the row with a given id leaves the primary-key lookup
returning the replacement. -/
theorem find_replace_by_id (l : List DiscussionThread) (id : Nat) (t t' : DiscussionThread)
    (hfind : l.find? (fun th => th.id == id) = some t) (ht' : t'.id = id) :
    (l.map (fun th => if th.id = id then t' else th)).find? (fun th => th.id == id)
      = some t' := by
  induction l with
  | nil => simp [List.find?] at hfind
  | cons x xs ih =>
    by_cases hx : x.id = id
    · rw [List.map_cons, if_pos hx, List.find?_cons]
      simp [ht']
    · have hb : (x.id == id) = false := by simp [hx]
      rw [List.find?_cons] at hfind
      simp only [hb] at hfind
      rw [List.map_cons, if_neg hx, List.find?_cons]
      simp only [hb]
      exact ih hfind

/-- After filtering out a given id, the primary-key lookup fails. -/
theorem find_filter_out_id (l : List DiscussionThread) (id : Nat) :
    (l.filter (fun th => th.id != id)).find? (fun th => th.id == id) = none := by
  rw [List.find?_eq_none]
  intro x hx
  have hmem := (List.mem_filter.mp hx).2
  simp only [bne_iff_ne, ne_eq] at hmem
  simp [hmem]

/-! Claim theorems. -/

/-- C1: for every stored thread `t` and every authenticated user `v` with
`v.id ≠ t.user_id`, both `update` and `delete` fail with the Forbidden
error (401, "This is not your discussion thread") and leave the whole
stored state — the thread itself and everything else — unchanged. -/
theorem update_delete_by_non_owner_forbidden (s : AppState) (t : DiscussionThread)
    (v : User) (c : String) (now : Nat)
    (hget : get_discussion_thread s t.id = .ok t) (hv : v.id ≠ t.user_id) :
    update_discussion_thread s t.id c v now = (.error forbiddenErr, s) ∧
    delete_discussion_thread s t.id v = (.error forbiddenErr, s) := by
  have hvo : t.user_id ≠ v.id := Ne.symm hv
  constructor
  · unfold update_discussion_thread
    rw [hget]
    simp only []
    rw [if_pos hvo]
  · unfold delete_discussion_thread
    rw [hget]
    simp only []
    rw [if_pos hvo]

/-- C1 witness: a stored thread owned by user 1; user 2 can neither update
nor delete it, and the state is untouched. -/
theorem update_delete_by_non_owner_forbidden_witness :
    update_discussion_thread
        ⟨[⟨1, "alice", "h", 0⟩], [⟨7, 1, "T1", "C1", none, 0, 0⟩], []⟩ 7 "x"
        ⟨2, "bob", "h", 0⟩ 5
      = (.error forbiddenErr, ⟨[⟨1, "alice", "h", 0⟩], [⟨7, 1, "T1", "C1", none, 0, 0⟩], []⟩) ∧
    delete_discussion_thread
        ⟨[⟨1, "alice", "h", 0⟩], [⟨7, 1, "T1", "C1", none, 0, 0⟩], []⟩ 7
        ⟨2, "bob", "h", 0⟩
      = (.error forbiddenErr, ⟨[⟨1, "alice", "h", 0⟩], [⟨7, 1, "T1", "C1", none, 0, 0⟩], []⟩) :=
  update_delete_by_non_owner_forbidden
    ⟨[⟨1, "alice", "h", 0⟩], [⟨7, 1, "T1", "C1", none, 0, 0⟩], []⟩
    ⟨7, 1, "T1", "C1", none, 0, 0⟩ ⟨2, "bob", "h", 0⟩ "x" 5 (by rfl) (by decide)

/-- C3: an owner update with a later clock reading succeeds, the returned
thread carries the new content and the refreshed `updated_at` (strictly
above the previous one), and the new values are what a subsequent fetch of
the row returns. -/
theorem update_by_owner_success (s : AppState) (t : DiscussionThread) (u : User)
    (c : String) (now : Nat)
    (hget : get_discussion_thread s t.id = .ok t) (hown : t.user_id = u.id)
    (htime : t.updated_at < now) :
    ∃ t', (update_discussion_thread s t.id c u now).1 = .ok t' ∧
      t'.content = c ∧ t'.updated_at = now ∧ t.updated_at < t'.updated_at ∧
      get_discussion_thread (update_discussion_thread s t.id c u now).2 t.id = .ok t' := by
  have hfind := get_ok_find s t.id t hget
  refine ⟨{ t with content := c, updated_at := now }, ?_⟩
  have hupd : update_discussion_thread s t.id c u now
      = (.ok { t with content := c, updated_at := now },
         { users := s.users,
           threads := s.threads.map (fun th => if th.id = t.id then { t with content := c, updated_at := now } else th),
           files := s.files }) := by
    unfold update_discussion_thread
    rw [hget]
    simp only []
    rw [if_neg (fun hne => hne hown)]
  rw [hupd]
  refine ⟨rfl, rfl, rfl, htime, ?_⟩
  unfold get_discussion_thread
  dsimp only
  rw [find_replace_by_id s.threads t.id t { t with content := c, updated_at := now } hfind rfl]

/-- C3 witness: alice updates her thread at time 5; content becomes "C2",
`updated_at` moves from 0 to 5, and the fetch after the call sees it. -/
theorem update_by_owner_success_witness :
    0 < 5 ∧
    ∃ t', (update_discussion_thread
        ⟨[⟨1, "alice", "h", 0⟩], [⟨7, 1, "T1", "C1", none, 0, 0⟩], []⟩ 7 "C2"
        ⟨1, "alice", "h", 0⟩ 5).1 = .ok t' ∧
      t'.content = "C2" ∧ t'.updated_at = 5 ∧
      (⟨7, 1, "T1", "C1", none, 0, 0⟩ : DiscussionThread).updated_at < t'.updated_at ∧
      get_discussion_thread (update_discussion_thread
        ⟨[⟨1, "alice", "h", 0⟩], [⟨7, 1, "T1", "C1", none, 0, 0⟩], []⟩ 7 "C2"
        ⟨1, "alice", "h", 0⟩ 5).2 7 = .ok t' :=
  ⟨by decide,
   update_by_owner_success
     ⟨[⟨1, "alice", "h", 0⟩], [⟨7, 1, "T1", "C1", none, 0, 0⟩], []⟩
     ⟨7, 1, "T1", "C1", none, 0, 0⟩ ⟨1, "alice", "h", 0⟩ "C2" 5 (by rfl) (by rfl) (by decide)⟩

/-- C4: when no thread has the requested id, read, update and delete all
fail with NotFound (for any actor, since the fetch precedes the ownership
check) and leave the state untouched; and an owner delete succeeds, leaves
no row with that id behind, and makes every subsequent read of that id
fail with NotFound. -/
theorem missing_not_found_and_owner_delete (s : AppState) (id : Nat) (actor : User)
    (c : String) (now : Nat) (t : DiscussionThread) (u : User) :
    (s.threads.find? (fun th => th.id == id) = none →
      get_discussion_thread s id = .error notFoundErr ∧
      update_discussion_thread s id c actor now = (.error notFoundErr, s) ∧
      delete_discussion_thread s id actor = (.error notFoundErr, s)) ∧
    (get_discussion_thread s t.id = .ok t → t.user_id = u.id →
      (delete_discussion_thread s t.id u).1 = .ok () ∧
      (∀ th ∈ (delete_discussion_thread s t.id u).2.threads, th.id ≠ t.id) ∧
      get_discussion_thread (delete_discussion_thread s t.id u).2 t.id
        = .error notFoundErr) := by
  constructor
  · intro hnone
    have hg : get_discussion_thread s id = .error notFoundErr := by
      unfold get_discussion_thread
      rw [hnone]
    refine ⟨hg, ?_, ?_⟩
    · unfold update_discussion_thread
      rw [hg]
    · unfold delete_discussion_thread
      rw [hg]
  · intro hget hown
    have hdel : delete_discussion_thread s t.id u
        = (.ok (), { users := s.users,
                     threads := s.threads.filter (fun th => th.id != t.id),
                     files := s.files }) := by
      unfold delete_discussion_thread
      rw [hget]
      simp only []
      rw [if_neg (fun hne => hne hown)]
    rw [hdel]
    refine ⟨rfl, ?_, ?_⟩
    · intro th hth
      have hmem := (List.mem_filter.mp hth).2
      simpa using hmem
    · unfold get_discussion_thread
      dsimp only
      rw [find_filter_out_id s.threads t.id]

/-- C4 witness: id 99 is absent, so read, update and delete return
NotFound with the state unchanged; alice then deletes her thread 7 and a
subsequent read of 7 returns NotFound. -/
theorem missing_not_found_and_owner_delete_witness :
    (get_discussion_thread ⟨[⟨1, "alice", "h", 0⟩], [⟨7, 1, "T1", "C1", none, 0, 0⟩], []⟩ 99
       = .error notFoundErr) ∧
    (update_discussion_thread ⟨[⟨1, "alice", "h", 0⟩], [⟨7, 1, "T1", "C1", none, 0, 0⟩], []⟩
       99 "x" ⟨2, "bob", "h", 0⟩ 5
       = (.error notFoundErr, ⟨[⟨1, "alice", "h", 0⟩], [⟨7, 1, "T1", "C1", none, 0, 0⟩], []⟩)) ∧
    ((delete_discussion_thread ⟨[⟨1, "alice", "h", 0⟩], [⟨7, 1, "T1", "C1", none, 0, 0⟩], []⟩
       7 ⟨1, "alice", "h", 0⟩).1 = .ok ()) ∧
    (get_discussion_thread (delete_discussion_thread
       ⟨[⟨1, "alice", "h", 0⟩], [⟨7, 1, "T1", "C1", none, 0, 0⟩], []⟩
       7 ⟨1, "alice", "h", 0⟩).2 7 = .error notFoundErr) := by
  have H := missing_not_found_and_owner_delete
    ⟨[⟨1, "alice", "h", 0⟩], [⟨7, 1, "T1", "C1", none, 0, 0⟩], []⟩ 99 ⟨2, "bob", "h", 0⟩
    "x" 5 ⟨7, 1, "T1", "C1", none, 0, 0⟩ ⟨1, "alice", "h", 0⟩
  exact ⟨(H.1 (by rfl)).1, (H.1 (by rfl)).2.1, (H.2 (by rfl) (by rfl)).1,
         (H.2 (by rfl) (by rfl)).2.2⟩

/-- C7: a successful owner update changes only `content` and `updated_at`
of the target thread — its id, owner, title, image path and creation time
are carried over — and the users table, the saved files, and every stored
thread with a different id are unchanged. -/
theorem update_frame (s : AppState) (t : DiscussionThread) (u : User)
    (c : String) (now : Nat)
    (hget : get_discussion_thread s t.id = .ok t) (hown : t.user_id = u.id) :
    ∃ t', (update_discussion_thread s t.id c u now).1 = .ok t' ∧
      t'.id = t.id ∧ t'.user_id = t.user_id ∧ t'.title = t.title ∧
      t'.image_path = t.image_path ∧ t'.created_at = t.created_at ∧
      (update_discussion_thread s t.id c u now).2.users = s.users ∧
      (update_discussion_thread s t.id c u now).2.files = s.files ∧
      (update_discussion_thread s t.id c u now).2.threads
        = s.threads.map (fun th => if th.id = t.id then t' else th) ∧
      (∀ th ∈ s.threads, th.id ≠ t.id →
        th ∈ (update_discussion_thread s t.id c u now).2.threads) := by
  refine ⟨{ t with content := c, updated_at := now }, ?_⟩
  have hupd : update_discussion_thread s t.id c u now
      = (.ok { t with content := c, updated_at := now },
         { users := s.users,
           threads := s.threads.map (fun th => if th.id = t.id then { t with content := c, updated_at := now } else th),
           files := s.files }) := by
    unfold update_discussion_thread
    rw [hget]
    simp only []
    rw [if_neg (fun hne => hne hown)]
  rw [hupd]
  refine ⟨rfl, rfl, rfl, rfl, rfl, rfl, rfl, rfl, rfl, ?_⟩
  intro th hth hne
  dsimp only
  refine List.mem_map.mpr ⟨th, hth, ?_⟩
  rw [if_neg hne]

/-- C7 witness: alice updates thread 7 in a store that also holds thread 8
and a second user; the users table, the files, and thread 8 survive
unchanged, and only content and `updated_at` of thread 7 move. -/
theorem update_frame_witness :
    ∃ t', (update_discussion_thread
        ⟨[⟨1, "alice", "h", 0⟩, ⟨2, "bob", "h", 0⟩],
         [⟨7, 1, "T1", "C1", none, 3, 4⟩, ⟨8, 2, "T2", "C2", none, 0, 0⟩], ["f.png"]⟩
        7 "C9" ⟨1, "alice", "h", 0⟩ 9).1 = .ok t' ∧
      t'.id = (⟨7, 1, "T1", "C1", none, 3, 4⟩ : DiscussionThread).id ∧
      t'.user_id = (⟨7, 1, "T1", "C1", none, 3, 4⟩ : DiscussionThread).user_id ∧
      t'.title = (⟨7, 1, "T1", "C1", none, 3, 4⟩ : DiscussionThread).title ∧
      t'.image_path = (⟨7, 1, "T1", "C1", none, 3, 4⟩ : DiscussionThread).image_path ∧
      t'.created_at = (⟨7, 1, "T1", "C1", none, 3, 4⟩ : DiscussionThread).created_at ∧
      (update_discussion_thread
        ⟨[⟨1, "alice", "h", 0⟩, ⟨2, "bob", "h", 0⟩],
         [⟨7, 1, "T1", "C1", none, 3, 4⟩, ⟨8, 2, "T2", "C2", none, 0, 0⟩], ["f.png"]⟩
        7 "C9" ⟨1, "alice", "h", 0⟩ 9).2.users
        = [⟨1, "alice", "h", 0⟩, ⟨2, "bob", "h", 0⟩] ∧
      (update_discussion_thread
        ⟨[⟨1, "alice", "h", 0⟩, ⟨2, "bob", "h", 0⟩],
         [⟨7, 1, "T1", "C1", none, 3, 4⟩, ⟨8, 2, "T2", "C2", none, 0, 0⟩], ["f.png"]⟩
        7 "C9" ⟨1, "alice", "h", 0⟩ 9).2.files = ["f.png"] ∧
      (update_discussion_thread
        ⟨[⟨1, "alice", "h", 0⟩, ⟨2, "bob", "h", 0⟩],
         [⟨7, 1, "T1", "C1", none, 3, 4⟩, ⟨8, 2, "T2", "C2", none, 0, 0⟩], ["f.png"]⟩
        7 "C9" ⟨1, "alice", "h", 0⟩ 9).2.threads
        = [⟨7, 1, "T1", "C1", none, 3, 4⟩, ⟨8, 2, "T2", "C2", none, 0, 0⟩].map
            (fun th => if th.id = (⟨7, 1, "T1", "C1", none, 3, 4⟩ : DiscussionThread).id
                       then t' else th) ∧
      (∀ th ∈ ([⟨7, 1, "T1", "C1", none, 3, 4⟩, ⟨8, 2, "T2", "C2", none, 0, 0⟩] :
            List DiscussionThread),
        th.id ≠ (⟨7, 1, "T1", "C1", none, 3, 4⟩ : DiscussionThread).id →
        th ∈ (update_discussion_thread
          ⟨[⟨1, "alice", "h", 0⟩, ⟨2, "bob", "h", 0⟩],
           [⟨7, 1, "T1", "C1", none, 3, 4⟩, ⟨8, 2, "T2", "C2", none, 0, 0⟩], ["f.png"]⟩
          7 "C9" ⟨1, "alice", "h", 0⟩ 9).2.threads) :=
  update_frame
    ⟨[⟨1, "alice", "h", 0⟩, ⟨2, "bob", "h", 0⟩],
     [⟨7, 1, "T1", "C1", none, 3, 4⟩, ⟨8, 2, "T2", "C2", none, 0, 0⟩], ["f.png"]⟩
    ⟨7, 1, "T1", "C1", none, 3, 4⟩ ⟨1, "alice", "h", 0⟩ "C9" 9 (by rfl) (by rfl)

/-- C6: registration with mismatched passwords fails with 422 and stores
nothing; registering a username that an existing user already holds fails
with the uniqueness-violation 422 and leaves the store (in particular the
first user) unchanged; and registration with a fresh username and matching
passwords succeeds and appends the new row. -/
theorem create_user_spec (s : AppState) (un p cp : String) (salt newId now : Nat) :
    (p ≠ cp → create_user s un p cp salt newId now = (.error pwMismatchErr, s)) ∧
    ((∃ u ∈ s.users, u.username = un) → create_user s un p p salt newId now
        = (.error duplicateErr, s)) ∧
    ((∀ u ∈ s.users, u.username ≠ un) →
      (create_user s un p p salt newId now).1 = .ok () ∧
      (create_user s un p p salt newId now).2
        = { users := s.users ++ [⟨newId, un, hash_password salt p, now⟩],
            threads := s.threads, files := s.files }) := by
  refine ⟨?_, ?_, ?_⟩
  · intro hne
    unfold create_user
    rw [if_pos hne]
  · rintro ⟨u, hu, hun⟩
    have hdup : s.users.any (fun v => v.username == un) = true :=
      List.any_eq_true.mpr ⟨u, hu, by simp [hun]⟩
    unfold create_user
    rw [if_neg (fun hne => hne rfl), if_pos hdup]
  · intro hfresh
    have hdup : s.users.any (fun v => v.username == un) = false := by
      rw [List.any_eq_false]
      intro u hu
      simp [hfresh u hu]
    unfold create_user
    rw [if_neg (fun hne => hne rfl), if_neg (by rw [hdup]; exact Bool.false_ne_true)]
    exact ⟨rfl, rfl⟩

/-- C6 witness: with alice stored, a mismatched-password registration and
a duplicate "alice" registration both fail with 422 leaving the store
unchanged, while registering "bob" succeeds and appends his row. -/
theorem create_user_spec_witness :
    (create_user ⟨[⟨1, "alice", "h", 0⟩], [], []⟩ "bob" "p" "q" 3 2 9
       = (.error pwMismatchErr, ⟨[⟨1, "alice", "h", 0⟩], [], []⟩)) ∧
    (create_user ⟨[⟨1, "alice", "h", 0⟩], [], []⟩ "alice" "p" "p" 3 2 9
       = (.error duplicateErr, ⟨[⟨1, "alice", "h", 0⟩], [], []⟩)) ∧
    ((create_user ⟨[⟨1, "alice", "h", 0⟩], [], []⟩ "bob" "p" "p" 3 2 9).1 = .ok ()) :=
  ⟨(create_user_spec ⟨[⟨1, "alice", "h", 0⟩], [], []⟩ "bob" "p" "q" 3 2 9).1 (by decide),
   (create_user_spec ⟨[⟨1, "alice", "h", 0⟩], [], []⟩ "alice" "p" "p" 3 2 9).2.1
     ⟨⟨1, "alice", "h", 0⟩, by decide, rfl⟩,
   ((create_user_spec ⟨[⟨1, "alice", "h", 0⟩], [], []⟩ "bob" "p" "p" 3 2 9).2.2
     (by decide)).1⟩

/-- C8: a token issued for a user verifies back to that user immediately
(any positive ttl keeps `exp` above `now`); a validly signed token whose
expiry satisfies `exp ≤ now` verifies to Expired.  `token_verify` is by
construction a function of the secret, the current time and the token
alone — it takes no stored state. -/
theorem token_roundtrip_and_expiry (secret now : Nat) (u : String) (ttl : Nat)
    (tok : SignedToken) (httl : 0 < ttl)
    (hsig : tok.sig = sign secret tok.sub tok.exp) (hexp : tok.exp ≤ now) :
    token_verify secret now (create_access_token secret now u ttl) = .ok u ∧
    token_verify secret now tok = .error .Expired := by
  constructor
  · unfold token_verify create_access_token
    rw [if_neg (fun hne => hne rfl)]
    rw [if_neg (by dsimp only; omega)]
  · unfold token_verify
    rw [if_neg (fun hne => hne hsig), if_pos hexp]

/-- C8 witness: issue for "alice" at time 10 with ttl 5 and verify at once
returns "alice"; a signed token for "bob" that expired at time 3 verifies
to Expired at time 10. -/
theorem token_roundtrip_and_expiry_witness :
    token_verify 1 10 (create_access_token 1 10 "alice" 5) = .ok "alice" ∧
    token_verify 1 10 ⟨"bob", 3, sign 1 "bob" 3⟩ = .error .Expired :=
  token_roundtrip_and_expiry 1 10 "alice" 5 ⟨"bob", 3, sign 1 "bob" 3⟩
    (by decide) rfl (by decide)

/-- Stripping the salt prefix of a well-formed hash recovers exactly the
verification material. -/
theorem stripSalt_hash (salt : Nat) (p : String) :
    stripSalt (hash_password salt p).data = some p.data := by
  show stripSalt (List.replicate salt 's' ++ '$' :: p.data) = some p.data
  induction salt with
  | zero => simp [stripSalt]
  | succ n ih =>
    rw [List.replicate_succ, List.cons_append]
    unfold stripSalt
    rw [if_neg (by decide), if_pos rfl]
    exact ih

/-- C9: verification round-trips on any salt (`verify(p, hash(p)) = true`
whatever per-call salt the hash embedded); a hash of a different password
never verifies; and a malformed stored hash (one the salt parser rejects)
is treated as verification failure — `verify_password` is total, so no
exception can escape. -/
theorem password_hash_verify_spec (salt : Nat) (p p1 p2 : String) (h : String)
    (hne : p1 ≠ p2) (hmal : stripSalt h.data = none) :
    verify_password p (hash_password salt p) = true ∧
    verify_password p1 (hash_password salt p2) = false ∧
    verify_password p1 h = false := by
  refine ⟨?_, ?_, ?_⟩
  · unfold verify_password
    rw [stripSalt_hash]
    simp
  · unfold verify_password
    rw [stripSalt_hash]
    have hd : p2.data ≠ p1.data := fun hdd => hne (String.ext hdd.symm)
    simp [hd]
  · unfold verify_password
    rw [hmal]

/-- C9 witness: "pw" verifies against its own salted hash (salt 2), "a"
does not verify against the hash of "b", and the malformed stored hash
"x" yields false rather than an error. -/
theorem password_hash_verify_spec_witness :
    verify_password "pw" (hash_password 2 "pw") = true ∧
    verify_password "a" (hash_password 2 "b") = false ∧
    verify_password "a" "x" = false :=
  password_hash_verify_spec 2 "pw" "a" "b" "x" (by decide) (by rfl)

/-- A leading `%` in a `LIKE` pattern lets the rest of the pattern match
any suffix of the text. -/
theorem likeMatch_pct (p t : List Char) :
    likeMatch ('%' :: p) t = true ↔ ∃ t', t' <:+ t ∧ likeMatch p t' = true := by
  have hstep : likeMatch ('%' :: p) t = t.tails.any (fun t' => likeMatch p t') := by
    rw [likeMatch.eq_def]
    dsimp only
    rw [if_pos rfl]
  rw [hstep, List.any_eq_true]
  constructor
  · rintro ⟨t', ht', hm⟩
    exact ⟨t', (List.mem_tails t' t).mp ht', hm⟩
  · rintro ⟨t', ht', hm⟩
    exact ⟨t', (List.mem_tails t' t).mpr ht', hm⟩

/-- On a pattern head that is neither wildcard nor escape, `likeMatch`
consumes one literal character. -/
theorem likeMatch_cons_clean (c : Char) (p t : List Char)
    (h1 : c ≠ '%') (h2 : c ≠ '_') (h3 : c ≠ '\\') :
    likeMatch (c :: p) t
      = match t with
        | [] => false
        | d :: t' => c == d && likeMatch p t' := by
  rw [likeMatch.eq_def]
  dsimp only
  rw [if_neg h1, if_neg h2, if_neg h3]

/-- A wildcard-free pattern followed by a single `%` matches exactly the
texts of which the pattern is a literal character-prefix. -/
theorem likeMatch_clean_append :
    ∀ (q : List Char), (∀ c ∈ q, c ≠ '%' ∧ c ≠ '_' ∧ c ≠ '\\') →
    ∀ t, (likeMatch (q ++ ['%']) t = true ↔ q <+: t) := by
  intro q
  induction q with
  | nil =>
    intro _ t
    rw [List.nil_append, likeMatch_pct]
    constructor
    · intro _
      exact ⟨t, rfl⟩
    · intro _
      exact ⟨[], ⟨t, by simp⟩, rfl⟩
  | cons c q ih =>
    intro hq t
    have hc := hq c (List.mem_cons_self c q)
    have hq' : ∀ x ∈ q, x ≠ '%' ∧ x ≠ '_' ∧ x ≠ '\\' :=
      fun x hx => hq x (List.mem_cons_of_mem c hx)
    rw [List.cons_append, likeMatch_cons_clean c _ t hc.1 hc.2.1 hc.2.2]
    cases t with
    | nil =>
      simp
    | cons d t' =>
      simp only [Bool.and_eq_true, beq_iff_eq, List.cons_prefix_cons]
      exact and_congr Iff.rfl (ih hq' t')

/-- For a filter containing no `LIKE` wildcard or escape characters, the
pattern `%filter%` matches a title exactly when the filter is a
case-sensitive substring (contiguous) of it. -/
theorem likeContains_iff_substring (q t : String)
    (hq : ∀ c ∈ q.data, c ≠ '%' ∧ c ≠ '_' ∧ c ≠ '\\') :
    likeContains q t = true ↔ q.data <:+: t.data := by
  unfold likeContains
  rw [likeMatch_pct, List.infix_iff_prefix_suffix]
  constructor
  · rintro ⟨t', hsuf, hm⟩
    exact ⟨t', (likeMatch_clean_append q.data hq t').mp hm, hsuf⟩
  · rintro ⟨t', hpre, hsuf⟩
    exact ⟨t', hsuf, (likeMatch_clean_append q.data hq t').mpr hpre⟩

/-- C5 fails as stated: the claim promises a case-sensitive substring
filter for every filter string, but the code splices the filter into a SQL
`LIKE` pattern unescaped, so `_` acts as a single-character wildcard.  On
a store holding one thread titled "ab", the filter "_" returns that thread
even though "_" is not a substring of "ab", so the returned list differs
from the substring-filtered list. -/
theorem list_by_wildcard_not_substring_cex :
    list_discussion_threads ⟨[], [⟨1, 1, "ab", "c", none, 0, 0⟩], []⟩ (some "_")
      ≠ (⟨[], [⟨1, 1, "ab", "c", none, 0, 0⟩], []⟩ : AppState).threads.filter
          (fun t => decide ("_".data <:+: t.title.data)) := by
  decide

/-- C5 (amended): for every filter string containing none of the `LIKE`
metacharacters `%`, `_` and `\`, the handler returns exactly the stored
threads whose title contains the filter as a case-sensitive substring, in
insertion order (an empty list, not an error, when none match); with no
filter it returns all stored threads.  Filters containing `%`, `_` or `\`
are instead interpreted with `LIKE` wildcard/escape semantics. -/
theorem list_discussion_threads_substring_spec (s : AppState) (q : String)
    (hq : ∀ c ∈ q.data, c ≠ '%' ∧ c ≠ '_' ∧ c ≠ '\\') :
    list_discussion_threads s (some q)
      = s.threads.filter (fun t => decide (q.data <:+: t.title.data)) ∧
    list_discussion_threads s none = s.threads := by
  refine ⟨?_, rfl⟩
  unfold list_discussion_threads
  apply List.filter_congr
  intro t _
  by_cases hs : q.data <:+: t.title.data
  · rw [(likeContains_iff_substring q t.title hq).mpr hs]
    simp [hs]
  · have hnot : likeContains q t.title = false := by
      rw [← Bool.not_eq_true]
      exact fun hcontra => hs ((likeContains_iff_substring q t.title hq).mp hcontra)
    rw [hnot]
    simp [hs]

/-- C5 witness: the wildcard-free filter "ab" keeps exactly the thread
whose title "xaby" contains it, drops "zzz", and the no-filter listing
returns the whole store in order. -/
theorem list_discussion_threads_substring_spec_witness :
    list_discussion_threads
        ⟨[], [⟨1, 1, "xaby", "c", none, 0, 0⟩, ⟨2, 1, "zzz", "c", none, 0, 0⟩], []⟩
        (some "ab")
      = (⟨[], [⟨1, 1, "xaby", "c", none, 0, 0⟩, ⟨2, 1, "zzz", "c", none, 0, 0⟩], []⟩ :
          AppState).threads.filter (fun t => decide ("ab".data <:+: t.title.data)) ∧
    list_discussion_threads
        ⟨[], [⟨1, 1, "xaby", "c", none, 0, 0⟩, ⟨2, 1, "zzz", "c", none, 0, 0⟩], []⟩ none
      = (⟨[], [⟨1, 1, "xaby", "c", none, 0, 0⟩, ⟨2, 1, "zzz", "c", none, 0, 0⟩], []⟩ :
          AppState).threads :=
  list_discussion_threads_substring_spec
    ⟨[], [⟨1, 1, "xaby", "c", none, 0, 0⟩, ⟨2, 1, "zzz", "c", none, 0, 0⟩], []⟩
    "ab" (by decide)

/-- A present, nonempty content type that fails the `image/.+` pattern
makes `is_image` raise the 422 error. -/
theorem is_image_bad_ct (img : UploadFile) (ct : String)
    (hct : img.content_type = some ct) (hne : ct ≠ "") (hmatch : image_ct_match ct = false) :
    is_image (some img) = .error imgErr := by
  unfold is_image
  dsimp only
  rw [hct]
  dsimp only
  rw [if_neg hne, hmatch]
  simp

/-- On a supplied upload, `is_image` either accepts (returning `true`) or
raises the 422 error; it never returns `false`. -/
theorem is_image_some_cases (img : UploadFile) :
    is_image (some img) = .ok true ∨ is_image (some img) = .error imgErr := by
  unfold is_image
  dsimp only
  cases hct : img.content_type with
  | none => left; rfl
  | some ct =>
    dsimp only
    by_cases h1 : ct = ""
    · left; rw [if_pos h1]
    · by_cases h2 : image_ct_match ct = true
      · left; rw [if_neg h1, if_pos h2]
      · right
        rw [if_neg h1, if_neg h2]

/-- A successful `save_image` only appends a file: the thread and user
tables of the resulting state are those of the input state. -/
theorem save_image_state (img : UploadFile) (un ti : String) (env : Env) (s : AppState)
    (pth : String) (s2 : AppState) (h : save_image img un ti env s = .ok (pth, s2)) :
    s2.threads = s.threads ∧ s2.users = s.users := by
  unfold save_image at h
  cases hfn : img.filename with
  | none => rw [hfn] at h; simp at h
  | some fn =>
    rw [hfn] at h
    dsimp only at h
    cases hex : ext_search fn.data with
    | none => rw [hex] at h; simp at h
    | some ext =>
      rw [hex] at h
      dsimp only at h
      cases hio : env.ioOk with
      | false => rw [hio] at h; simp at h
      | true =>
        rw [hio] at h
        rw [if_pos rfl] at h
        simp only [Except.ok.injEq, Prod.mk.injEq] at h
        rw [← h.2]
        exact ⟨rfl, rfl⟩

/-- A successful attachment step only appends a file: the thread and user
tables of the resulting state are those of the input state. -/
theorem attach_image_state (isImg : Bool) (image : Option UploadFile) (un ti : String)
    (env : Env) (s : AppState) (path : Option String) (s1 : AppState)
    (h : attach_image isImg image un ti env s = .ok (path, s1)) :
    s1.threads = s.threads ∧ s1.users = s.users := by
  unfold attach_image at h
  cases isImg with
  | false =>
    rw [if_neg Bool.false_ne_true] at h
    simp only [Except.ok.injEq, Prod.mk.injEq] at h
    rw [← h.2]
    exact ⟨rfl, rfl⟩
  | true =>
    rw [if_pos rfl] at h
    cases image with
    | none =>
      simp only [Except.ok.injEq, Prod.mk.injEq] at h
      rw [← h.2]
      exact ⟨rfl, rfl⟩
    | some img =>
      dsimp only at h
      cases hs : save_image img un ti env s with
      | error e => rw [hs] at h; simp at h
      | ok pr =>
        obtain ⟨pth, s2⟩ := pr
        rw [hs] at h
        simp only [Except.ok.injEq, Prod.mk.injEq] at h
        rw [← h.2]
        exact save_image_state img un ti env s pth s2 hs

/-- C2 (amended): a supplied attachment that carries a present content
type failing the image pattern, or whose filename yields no extension,
makes create fail with the 422 ValidationError before any persistence
write — the state (thread rows and saved files alike) is exactly the
input state.  And whenever the database commit fails, no thread row is
stored.  The original claim's further promise that no saved attachment
file remains after a persistence failure does not hold of the code (see
the counterexample): the file saved before the failed commit stays. -/
theorem create_attachment_validation (s : AppState) (u : User)
    (title content : String) (img : UploadFile) (env : Env) :
    ((∃ ct, img.content_type = some ct ∧ ct ≠ "" ∧ image_ct_match ct = false) ∨
       (∀ fn, img.filename = some fn → ext_search fn.data = none) →
      create_discussion_thread title content u (some img) env s = (.error imgErr, s)) ∧
    (env.dbOk = false →
      (create_discussion_thread title content u (some img) env s).2.threads = s.threads) := by
  constructor
  · intro hbad
    rcases hbad with ⟨ct, hct, hne, hmatch⟩ | hext
    · unfold create_discussion_thread
      rw [is_image_bad_ct img ct hct hne hmatch]
    · rcases is_image_some_cases img with hok | herr
      · unfold create_discussion_thread
        rw [hok]
        dsimp only
        have hatt : attach_image true (some img) u.username title env s = .error imgErr := by
          unfold attach_image
          rw [if_pos rfl]
          dsimp only
          unfold save_image
          cases hfn : img.filename with
          | none => rfl
          | some fn =>
            dsimp only
            rw [hext fn hfn]
        rw [hatt]
      · unfold create_discussion_thread
        rw [herr]
  · intro hdb
    unfold create_discussion_thread
    cases his : is_image (some img) with
    | error e => rfl
    | ok b =>
      dsimp only
      cases hatt : attach_image b (some img) u.username title env s with
      | error e => rfl
      | ok pr =>
        obtain ⟨path, s1⟩ := pr
        dsimp only
        rw [hdb, if_neg Bool.false_ne_true]
        exact (attach_image_state b (some img) u.username title env s path s1 hatt).1

/-- C2 fails as stated on the persistence-failure half: with a valid image
attachment and a failing database commit, create surfaces the 422 error
and stores no thread row, but the attachment file written beforehand is
left behind — the code never removes it, so the all-or-nothing promise
("no saved attachment file remains after a persistence failure") is
violated at this input. -/
theorem create_orphan_file_on_db_failure_cex :
    (create_discussion_thread "t" "c" ⟨1, "alice", "h", 0⟩
        (some ⟨some "a.png", some "image/png"⟩) ⟨"/img", 5, 10, 2, true, false⟩
        ⟨[], [], []⟩).1 = .error dbErr ∧
    (create_discussion_thread "t" "c" ⟨1, "alice", "h", 0⟩
        (some ⟨some "a.png", some "image/png"⟩) ⟨"/img", 5, 10, 2, true, false⟩
        ⟨[], [], []⟩).2.threads = [] ∧
    (create_discussion_thread "t" "c" ⟨1, "alice", "h", 0⟩
        (some ⟨some "a.png", some "image/png"⟩) ⟨"/img", 5, 10, 2, true, false⟩
        ⟨[], [], []⟩).2.files = ["/img/5_alice_t.png"] := by
  refine ⟨rfl, rfl, rfl⟩

/-- C2 witness: a non-image content type is rejected with 422 and the
empty store stays empty; and with a failing commit no thread row is
stored. -/
theorem create_attachment_validation_witness :
    create_discussion_thread "t" "c" ⟨1, "alice", "h", 0⟩
        (some ⟨some "a.png", some "text/plain"⟩) ⟨"/img", 5, 10, 2, true, true⟩
        ⟨[], [], []⟩ = (.error imgErr, ⟨[], [], []⟩) ∧
    (create_discussion_thread "t" "c" ⟨1, "alice", "h", 0⟩
        (some ⟨some "a.png", some "image/png"⟩) ⟨"/img", 5, 10, 2, true, false⟩
        ⟨[], [], []⟩).2.threads = ([] : List DiscussionThread) :=
  ⟨(create_attachment_validation ⟨[], [], []⟩ ⟨1, "alice", "h", 0⟩ "t" "c"
      ⟨some "a.png", some "text/plain"⟩ ⟨"/img", 5, 10, 2, true, true⟩).1
      (Or.inl ⟨"text/plain", rfl, by decide, by decide⟩),
   (create_attachment_validation ⟨[], [], []⟩ ⟨1, "alice", "h", 0⟩ "t" "c"
      ⟨some "a.png", some "image/png"⟩ ⟨"/img", 5, 10, 2, true, false⟩).2 rfl⟩

/-- C10: `is_image` accepts an upload whose content type is missing or
empty (the Python truthiness guard skips the pattern check), raising only
when a nonempty content type is present that fails `image/.+`; so such an
upload is treated as an image and — subject only to the file-extension
check — saved, and a create call with it succeeds with the saved path
recorded on the new thread and in the file store. -/
theorem is_image_content_type_optional (img : UploadFile) (s : AppState) (u : User)
    (title content : String) (env : Env) (fn : String) (ext : List Char) :
    (img.content_type = none → is_image (some img) = .ok true) ∧
    (img.content_type = some "" → is_image (some img) = .ok true) ∧
    (is_image (some img) = .error imgErr ↔
      ∃ ct, img.content_type = some ct ∧ ct ≠ "" ∧ image_ct_match ct = false) ∧
    (img.content_type = none → img.filename = some fn → ext_search fn.data = some ext →
      env.ioOk = true → env.dbOk = true →
      create_discussion_thread title content u (some img) env s
        = (.ok ⟨env.newId, u.id, title, content,
              some (mk_image_path env u.username title ext), env.now, env.now⟩,
           { users := s.users,
             threads := s.threads ++ [⟨env.newId, u.id, title, content,
               some (mk_image_path env u.username title ext), env.now, env.now⟩],
             files := s.files ++ [mk_image_path env u.username title ext] })) := by
  have hok_none : img.content_type = none → is_image (some img) = .ok true := by
    intro hn
    unfold is_image
    dsimp only
    rw [hn]
  have hok_empty : img.content_type = some "" → is_image (some img) = .ok true := by
    intro he
    unfold is_image
    dsimp only
    rw [he]
    dsimp only
    rw [if_pos rfl]
  refine ⟨hok_none, hok_empty, ⟨?_, ?_⟩, ?_⟩
  · intro herr
    cases hct : img.content_type with
    | none => rw [hok_none hct] at herr; simp at herr
    | some ct =>
      by_cases h1 : ct = ""
      · rw [h1] at hct
        rw [hok_empty hct] at herr
        simp at herr
      · by_cases h2 : image_ct_match ct = true
        · have : is_image (some img) = .ok true := by
            unfold is_image
            dsimp only
            rw [hct]
            dsimp only
            rw [if_neg h1, if_pos h2]
          rw [this] at herr
          simp at herr
        · exact ⟨ct, rfl, h1, by rw [← Bool.not_eq_true]; exact h2⟩
  · rintro ⟨ct, hct, hne, hmatch⟩
    exact is_image_bad_ct img ct hct hne hmatch
  · intro hn hfn hex hio hdb
    unfold create_discussion_thread
    rw [hok_none hn]
    dsimp only
    have hatt : attach_image true (some img) u.username title env s
        = .ok (some (mk_image_path env u.username title ext),
               { users := s.users, threads := s.threads,
                 files := s.files ++ [mk_image_path env u.username title ext] }) := by
      unfold attach_image
      rw [if_pos rfl]
      dsimp only
      unfold save_image
      rw [hfn]
      dsimp only
      rw [hex]
      dsimp only
      rw [hio, if_pos rfl]
    rw [hatt]
    dsimp only
    rw [hdb, if_pos rfl]

/-- C10 witness: an upload named "a.png" with no content type is accepted
by `is_image`, and creating a thread with it saves the file and records
its path on the stored row. -/
theorem is_image_content_type_optional_witness :
    is_image (some ⟨some "a.png", none⟩) = .ok true ∧
    create_discussion_thread "t" "c" ⟨1, "alice", "h", 0⟩ (some ⟨some "a.png", none⟩)
        ⟨"/img", 5, 10, 2, true, true⟩ ⟨[], [], []⟩
      = (.ok ⟨2, 1, "t", "c", some "/img/5_alice_t.png", 10, 10⟩,
         ⟨[], [⟨2, 1, "t", "c", some "/img/5_alice_t.png", 10, 10⟩],
          ["/img/5_alice_t.png"]⟩) := by
  have H := is_image_content_type_optional ⟨some "a.png", none⟩ ⟨[], [], []⟩
    ⟨1, "alice", "h", 0⟩ "t" "c" ⟨"/img", 5, 10, 2, true, true⟩ "a.png"
    ['.', 'p', 'n', 'g']
  exact ⟨H.1 rfl, H.2.2.2 rfl rfl (by rfl) rfl rfl⟩

end ForumSpec
